import Mathlib

/-!
Verification of the flight-pairing enrichment engine and filter/sort evaluator
implemented in `src/flight_pairing_finder_full.py` (the superset variant) and
`src/flight_pairing_app.py`.

Shallow embedding conventions:
* pandas timestamps are integer seconds since 1970-01-01 00:00 (day 0 of the
  epoch is a Thursday); `NaT` (the result of a failed
  `pd.to_datetime(..., format, errors = coerce)`) is `Option.none`.
* pandas `Timedelta` values (`pd.to_timedelta(s ++ ":00", errors = coerce)`)
  are integer seconds, `Option.none` for `NaT`.  pandas timedeltas are signed:
  a block-hours cell such as "-5:30" parses to a negative timedelta.
* float results of `total_seconds() / 3600` and of the per-row derived columns
  are modelled as exact rationals; a float `NaN` entry is `Option.none`.
* a raw CSV cell, whose runtime type in pandas depends on column inference,
  is the sum type `PyVal` (missing / number / string).
* Python strings are `List Char`, so that `split`, `strip` and `count` are
  structurally recursive and kernel-computable.
-/

namespace FlightPairing

/-! ### Time helpers (pandas Timestamp accessors) -/

/-- Day index of a timestamp: pandas `.dt.date` (and `.normalize()` up to the
86400 factor).  Integer division in Lean is Euclidean, which for the positive
divisor 86400 is exactly floor division, matching Python. -/
def dateOf (t : Int) : Int := t / 86400

/-- pandas `Timestamp.normalize()`: midnight of the same calendar day. -/
def normalize (t : Int) : Int := 86400 * (t / 86400)

/-- pandas `.dt.time` as seconds past midnight (always in `[0, 86400)`). -/
def timeOfDay (t : Int) : Int := t % 86400

/-- pandas `Timestamp.dayofweek`: Monday = 0 … Sunday = 6.  Day 0 of the Unix
epoch (1970-01-01) is a Thursday, hence the shift by 3. -/
def dayofweek (t : Int) : Int := (t / 86400 + 3) % 7

/-! ### Raw cell values -/

/-- A raw pandas cell as seen by per-row Python code: missing (`NaN`/`None`),
a (finite) number, or a string.  `pd.read_csv` yields numbers for numeric
columns and strings otherwise. -/
inductive PyVal where
  | na : PyVal
  | num : ℚ → PyVal
  | str : List Char → PyVal
deriving DecidableEq

/-- `pd.isna` on a cell. -/
def PyVal.isna : PyVal → Bool
  | .na => true
  | _ => false

/-- The Python comparison `cell == 0`: true only for the number 0 (comparing a
string or `None` with `0` is `False` in Python, not an error). -/
def PyVal.eqZero : PyVal → Bool
  | .num q => q == 0
  | _ => false

/-- Python exceptions that can escape the per-row closures. -/
inductive PyErr where
  | attributeError : PyErr
  | typeError : PyErr
  | valueError : PyErr
deriving DecidableEq

/-! ### `count_roundtrips` (lines 30-43 of the full variant) -/

/-- Python whitespace stripped by `str.strip()`. -/
def pyIsSpace (c : Char) : Bool :=
  c = ' ' ∨ c = '\t' ∨ c = '\n' ∨ c = '\r' ∨ c = '\x0b' ∨ c = '\x0c'

/-- Python `str.strip()`: drop leading and trailing whitespace. -/
def pyStrip (s : List Char) : List Char :=
  ((s.dropWhile pyIsSpace).reverse.dropWhile pyIsSpace).reverse

/-- Python `str.split('-')`: split on every dash, keeping empty tokens, with
`"".split('-') = [""]`. -/
def splitDash : List Char → List (List Char)
  | [] => [[]]
  | c :: cs =>
    match splitDash cs with
    | [] => [[]]
    | t :: ts => if c = '-' then [] :: t :: ts else (c :: t) :: ts

/-- The home-base constant `'PTY'`. -/
def homeBase : List Char := ['P', 'T', 'Y']

/-- The loop body of `count_roundtrips`: walk the airport list once carrying
the `found_first_pty` flag and the counter. -/
def roundtripWalk : List (List Char) → Bool → Nat → Nat
  | [], _, acc => acc
  | a :: rest, foundFirst, acc =>
    if a = homeBase then
      if foundFirst then roundtripWalk rest foundFirst (acc + 1)
      else roundtripWalk rest true acc
    else roundtripWalk rest foundFirst acc

/-- `count_roundtrips(pairing_details)`: `none` models a `NaN` argument (the
`pd.isna` guard); otherwise split on `-`, strip each token, and count
home-base occurrences after the first. -/
def count_roundtrips : Option (List Char) → Nat
  | Option.none => 0
  | some s => roundtripWalk ((splitDash s).map pyStrip) false 0

/-- `.astype(str)` as applied to the `Pairing details` column before
`count_roundtrips`: `NaN` renders as the string "nan", strings are unchanged,
and a numeric cell renders as its decimal digits (modelled as "0" — no decimal
rendering ever equals the token `PTY`, which is all `count_roundtrips`
inspects). -/
def astypeStr : PyVal → List Char
  | .na => "nan".data
  | .str s => s
  | .num _ => "0".data

/-! ### `calculate_actual_flights_per_day` (lines 46-53) -/

/-- Python `pairing_details.count('-')`. -/
def countDash (s : List Char) : Nat := s.countP (· = '-')

/-- `calculate_actual_flights_per_day(row)`, faithful to Python dynamic
typing: the `pd.isna(...) or ... or duration == 0` guard returns `0.0`;
otherwise `pairing_details.count('-')` raises `AttributeError` on a
non-string, and `num_segments / duration` raises `TypeError` when `duration`
is a string. -/
def calculate_actual_flights_per_day (details duration : PyVal) : Except PyErr ℚ :=
  if details.isna || duration.isna || duration.eqZero then .ok 0
  else
    match details, duration with
    | .str s, .num q => .ok (((countDash s : ℚ) + 1) / q)
    | .str _, _ => .error .typeError
    | _, _ => .error .attributeError

/-! ### Remaining derived columns (lines 55-61) -/

/-- `pd.to_numeric(cell, errors = coerce)` for the cell shapes that occur
here: numbers pass through, missing stays missing, and a string is parsed as
an optionally signed decimal integer (any other string coerces to `NaN`;
fractional renderings are not needed by the claims). -/
def pyToNumeric : PyVal → Option ℚ
  | .na => Option.none
  | .num q => some q
  | .str s =>
    let digits (l : List Char) : Option Nat :=
      if l = [] then Option.none
      else l.foldl (fun acc c => match acc with
        | some n => if c.isDigit then some (n * 10 + (c.toNat - '0'.toNat)) else Option.none
        | Option.none => Option.none) (some 0)
    match s with
    | '-' :: rest => (digits rest).map (fun n => -(n : ℚ))
    | '+' :: rest => (digits rest).map (fun n => (n : ℚ))
    | _ => (digits s).map (fun n => (n : ℚ))

/-- `Block hours total`: `Block hours` timedelta in hours, `NaN` when the
timedelta failed to parse. -/
def blockHoursTotalOf (blockSec : Option Int) : Option ℚ :=
  blockSec.map (fun b => (b : ℚ) / 3600)

/-- `Block Hours per Pairing Day` (lines 57-59): block hours divided by the
numeric duration, guarded to `0` unless both are present and the duration is
positive. -/
def blockHoursPerPairingDayOf (blockSec : Option Int) (pdd : Option ℚ) : ℚ :=
  match blockSec, pdd with
  | some b, some d => if 0 < d then ((b : ℚ) / 3600) / d else 0
  | _, _ => 0

/-! ### `calc_boosted` (lines 63-103) -/

/-- The eleven fixed 2025 Panama holiday dates of lines 63-67, as epoch day
indices (1970-01-01 = day 0). -/
def holidays_2025 : List Int :=
  [20089,  -- 2025-01-01
   20151,  -- 2025-03-04
   20196,  -- 2025-04-18
   20209,  -- 2025-05-01
   20395,  -- 2025-11-03
   20396,  -- 2025-11-04
   20397,  -- 2025-11-05
   20402,  -- 2025-11-10
   20420,  -- 2025-11-28
   20430,  -- 2025-12-08
   20447]  -- 2025-12-25

/-- `holidays_dt`: the holidays as normalized (midnight) timestamps. -/
def holidays_dt : List Int := holidays_2025.map (· * 86400)

/-- Departure-day weekend overlap: if the departure day is a Saturday or
Sunday, the clamped overlap of `[dep, arr]` with the remainder of the
departure day (up to `23:59:59`), in hours. -/
def depDayBoost (d a : Int) : ℚ :=
  if 5 ≤ dayofweek d then
    ((max 0 (min a (normalize d + 86399) - d) : Int) : ℚ) / 3600
  else 0

/-- Arrival-day weekend overlap: if the arrival day is a weekend day and a
different calendar date from the departure, the clamped elapsed portion of
the arrival day. -/
def arrDayBoost (d a : Int) : ℚ :=
  if 5 ≤ dayofweek a ∧ dateOf a ≠ dateOf d then
    ((max 0 (a - max d (normalize a)) : Int) : ℚ) / 3600
  else 0

/-- The `while current_day < arr.normalize()` loop starting at
`(dep + 1 day).normalize()`: the number of strictly intermediate calendar
days that are weekend days (each contributes 24 hours). -/
def weekendFullDays (d a : Int) : Nat :=
  let s := normalize (d + 86400)
  let n := ((normalize a - s) / 86400).toNat
  ((List.range n).filter (fun (k : Nat) => 5 ≤ dayofweek (s + 86400 * (k : Int)))).length

/-- The holiday loop over `dep.normalize() ≤ current_day ≤ arr.normalize()`:
for each holiday day, the overlap of `[dep, arr]` with the 24-hour holiday
window `[00:00:00, 23:59:59]`, added only when nonempty, in hours. -/
def holidayOverlapHours (d a : Int) : ℚ :=
  let s := normalize d
  let n := ((normalize a - s) / 86400 + 1).toNat
  ((List.range n).map (fun (k : Nat) =>
    let c := s + 86400 * (k : Int)
    if holidays_dt.contains c then
      let overlapStart := max d c
      let overlapEnd := min a (c + 86399)
      if overlapStart < overlapEnd then ((overlapEnd - overlapStart : Int) : ℚ) / 3600
      else 0
    else 0)).sum

/-- `calc_boosted(row)`: `0.0` when any of departure, arrival, block timedelta
is missing; otherwise the four-pass weekend/holiday overlap sum, capped by
`min` at the total block duration in hours. -/
def calc_boosted (dep arr blockSec : Option Int) : ℚ :=
  match dep, arr, blockSec with
  | some d, some a, some b =>
    min (depDayBoost d a + arrDayBoost d a + 24 * (weekendFullDays d a : ℚ)
          + holidayOverlapHours d a)
        ((b : ℚ) / 3600)
  | _, _, _ => 0

/-! ### Rows and the enrichment pipeline (lines 16-104) -/

/-- A row after the column-wise parses of lines 24-26 (`pd.to_datetime` and
`pd.to_timedelta`, both with `errors = coerce`, so failures are `none`) and
before the derived columns.  `pairingDetails` and `duration` stay raw cells:
the per-row closures receive them with their inferred runtime types. -/
structure ParsedRow where
  pairing : PyVal
  departure : Option Int
  arrival : Option Int
  blockSeconds : Option Int
  pairingDetails : PyVal
  duration : PyVal
deriving DecidableEq

/-- A fully enriched row: the raw fields plus the derived columns of
lines 27-103. -/
structure EnrichedRow where
  pairing : PyVal
  departure : Option Int
  arrival : Option Int
  blockSeconds : Option Int
  pairingDetails : PyVal
  duration : PyVal
  departureDay : Option Int
  arrivalDay : Option Int
  roundtrips : Nat
  actualFlightsPerDay : ℚ
  pairingDurationDays : Option ℚ
  blockHoursPerPairingDay : ℚ
  blockHoursTotal : Option ℚ
  boostedHours : ℚ
deriving DecidableEq

/-- Enrich one row, in source order: `Roundtrips` (line 44) never fails
(`astype(str)` makes its argument a string); `Actual Flights per Day`
(line 53) can raise, aborting enrichment of the whole table; the remaining
derived columns are total. -/
def enrichRow (r : ParsedRow) : Except PyErr EnrichedRow := do
  let rt := count_roundtrips (some (astypeStr r.pairingDetails))
  let afpd ← calculate_actual_flights_per_day r.pairingDetails r.duration
  let pdd := pyToNumeric r.duration
  .ok ⟨r.pairing, r.departure, r.arrival, r.blockSeconds, r.pairingDetails, r.duration,
       r.departure.map dayofweek, r.arrival.map dayofweek,
       rt, afpd, pdd,
       blockHoursPerPairingDayOf r.blockSeconds pdd,
       blockHoursTotalOf r.blockSeconds,
       calc_boosted r.departure r.arrival r.blockSeconds⟩

/-- The six required columns of line 19, in source order. -/
def required_cols : List String :=
  ["Pairing", "Departure", "Arrival", "Block hours", "Pairing details", "Duration"]

/-- Outcome of `parse_flight_pairings_csv`: the schema failure of lines 20-22
(the `st.error` message lists exactly the missing required columns and an
empty frame is returned, never a row subset), a Python exception escaping a
per-row closure, or the enriched table. -/
inductive LoadResult where
  | schemaError : List String → LoadResult
  | runtimeError : PyErr → LoadResult
  | table : List EnrichedRow → LoadResult
deriving DecidableEq

/-- `parse_flight_pairings_csv` (lines 17-104) over a header and parsed rows. -/
def parse_flight_pairings_csv (cols : List String) (rows : List ParsedRow) : LoadResult :=
  if required_cols.all (fun c => cols.contains c) then
    match rows.mapM enrichRow with
    | .ok enriched => .table enriched
    | .error e => .runtimeError e
  else
    .schemaError (required_cols.filter (fun c => !cols.contains c))

/-! ### Filter/sort evaluator (lines 156-208 of the full variant)

The sidebar state is reified as a `FilterSortSpec`; each widget default
("Any", empty selection, `0`, no time) deactivates its filter, exactly as the
`if` guards of lines 159-200 do.  Dates are epoch day indices, weekdays are
pandas day numbers, times of day are seconds past midnight. -/

/-- The sort columns offered at lines 147-152. -/
inductive SortCol where
  | departure : SortCol
  | arrival : SortCol
  | blockHoursTotal : SortCol
  | boostedHours : SortCol
  | blockHoursPerPairingDay : SortCol
  | roundtrips : SortCol
  | actualFlightsPerDay : SortCol
deriving DecidableEq

/-- The sidebar filter and sort state of lines 114-153. -/
structure FilterSortSpec where
  specificDepartureDate : Option Int
  specificArrivalDate : Option Int
  excludedDates : List Int
  preferredDepartureWeekday : Option Int
  preferredArrivalWeekday : Option Int
  preferredWeekdays : List Int
  earliestDeparture : Option Int
  earliestArrival : Option Int
  minDuration : ℚ
  maxDuration : ℚ
  maxRoundtrips : Nat
  maxActualFlightsPerDay : ℚ
  minBlockHoursPerDay : ℚ
  sortColumn : SortCol
  sortAscending : Bool
deriving DecidableEq

/-- Line 160: `Departure.dt.date.astype(str) == specific_departure_date`.
A `NaT` departure renders as the string "NaT", which never equals a chosen
date string, so the row is excluded without raising. -/
def depDatePred (d : Int) (x : EnrichedRow) : Bool :=
  match x.departure with
  | some t => dateOf t == d
  | Option.none => false

/-- Line 162, the arrival analogue of `depDatePred`. -/
def arrDatePred (d : Int) (x : EnrichedRow) : Bool :=
  match x.arrival with
  | some t => dateOf t == d
  | Option.none => false

/-- Lines 166-169: keep a row unless its departure or arrival date string is
in the excluded set; a `NaT` side renders as "NaT", which is never in the set
of excluded date strings, so it does not exclude. -/
def notExcludedPred (excl : List Int) (x : EnrichedRow) : Bool :=
  (match x.departure with
   | some t => !excl.contains (dateOf t)
   | Option.none => true) &&
  (match x.arrival with
   | some t => !excl.contains (dateOf t)
   | Option.none => true)

/-- Line 173: `Departure Day == preferred` (a `NaN` day name never matches). -/
def depWeekdayPred (w : Int) (x : EnrichedRow) : Bool :=
  match x.departureDay with
  | some dw => dw == w
  | Option.none => false

/-- Line 175, the arrival analogue. -/
def arrWeekdayPred (w : Int) (x : EnrichedRow) : Bool :=
  match x.arrivalDay with
  | some aw => aw == w
  | Option.none => false

/-- Line 186: `Departure.dt.time >= earliest_departure`.  The comparison on
the object-dtype time column treats a null entry (from `NaT`) as comparing
`False` (pandas `scalar_compare` maps null elements to `False` for ordering
comparisons), so unparsable departures are excluded without raising. -/
def depTimePred (thr : Int) (x : EnrichedRow) : Bool :=
  match x.departure with
  | some t => thr ≤ timeOfDay t
  | Option.none => false

/-- Line 188, the arrival analogue. -/
def arrTimePred (thr : Int) (x : EnrichedRow) : Bool :=
  match x.arrival with
  | some t => thr ≤ timeOfDay t
  | Option.none => false

/-- Line 192: `Block hours total >= min_duration`; a `NaN` total compares
`False`. -/
def minDurPred (m : ℚ) (x : EnrichedRow) : Bool :=
  match x.blockHoursTotal with
  | some q => m ≤ q
  | Option.none => false

/-- Line 194: `Block hours total <= max_duration`; `NaN` compares `False`. -/
def maxDurPred (m : ℚ) (x : EnrichedRow) : Bool :=
  match x.blockHoursTotal with
  | some q => q ≤ m
  | Option.none => false

/-- Line 196: `Roundtrips <= max_roundtrips`. -/
def maxRtPred (m : Nat) (x : EnrichedRow) : Bool :=
  x.roundtrips ≤ m

/-- Line 198: `Actual Flights per Day <= max_actual_flights_per_day`. -/
def maxAfpdPred (m : ℚ) (x : EnrichedRow) : Bool :=
  x.actualFlightsPerDay ≤ m

/-- Line 200: `Block Hours per Pairing Day >= min_block_hours_per_day`. -/
def minBhpdPred (m : ℚ) (x : EnrichedRow) : Bool :=
  m ≤ x.blockHoursPerPairingDay

/-- `all_days_in(row)` (lines 179-181): `pd.date_range(dep, arr)` enumerates
`dep, dep + 24h, dep + 48h, …` while the value stays `≤ arr` (empty when
`arr < dep`), and raises `ValueError` when either endpoint is `NaT`; the row
is kept when the weekday of every enumerated timestamp is in the preferred
set. -/
def all_days_in (preferred : List Int) (dep arr : Option Int) : Except PyErr Bool :=
  match dep, arr with
  | some d, some a =>
    let n := ((a - d) / 86400 + 1).toNat
    .ok (((List.range n).map (fun (k : Nat) => dayofweek (d + 86400 * (k : Int)))).all
          (fun w => preferred.contains w))
  | _, _ => .error .valueError

/-- Filtering by a fallible per-row predicate (`df[df.apply(p, axis = 1)]`):
the first raising row aborts the whole operation. -/
def filterE (p : EnrichedRow → Except PyErr Bool) : List EnrichedRow → Except PyErr (List EnrichedRow)
  | [] => .ok []
  | a :: as =>
    match p a with
    | .error e => .error e
    | .ok b =>
      match filterE p as with
      | .error e => .error e
      | .ok rest => .ok (if b then a :: rest else rest)

/-- The active filters of lines 159-175 (the ones applied before the
whole-span weekday filter), as predicates in source order. -/
def activePre (spec : FilterSortSpec) : List (EnrichedRow → Bool) :=
  (match spec.specificDepartureDate with
   | some d => [depDatePred d]
   | Option.none => []) ++
  (match spec.specificArrivalDate with
   | some d => [arrDatePred d]
   | Option.none => []) ++
  (if spec.excludedDates.isEmpty then [] else [notExcludedPred spec.excludedDates]) ++
  (match spec.preferredDepartureWeekday with
   | some w => [depWeekdayPred w]
   | Option.none => []) ++
  (match spec.preferredArrivalWeekday with
   | some w => [arrWeekdayPred w]
   | Option.none => [])

/-- The active filters of lines 185-200 (the ones applied after the
whole-span weekday filter), in source order. -/
def activePost (spec : FilterSortSpec) : List (EnrichedRow → Bool) :=
  (match spec.earliestDeparture with
   | some t => [depTimePred t]
   | Option.none => []) ++
  (match spec.earliestArrival with
   | some t => [arrTimePred t]
   | Option.none => []) ++
  (if 0 < spec.minDuration then [minDurPred spec.minDuration] else []) ++
  (if 0 < spec.maxDuration then [maxDurPred spec.maxDuration] else []) ++
  (if 0 < spec.maxRoundtrips then [maxRtPred spec.maxRoundtrips] else []) ++
  (if 0 < spec.maxActualFlightsPerDay then [maxAfpdPred spec.maxActualFlightsPerDay] else []) ++
  (if 0 < spec.minBlockHoursPerDay then [minBhpdPred spec.minBlockHoursPerDay] else [])

/-- Apply a list of boolean row filters in order (each `filtered_df =
filtered_df[mask]` step). -/
def chainFilter : List (EnrichedRow → Bool) → List EnrichedRow → List EnrichedRow
  | [], l => l
  | p :: ps, l => chainFilter ps (l.filter p)

/-- The sort key extracted from a row for each sort column; `none` is a
`NaT`/`NaN` entry (timestamps are compared via their numeric value). -/
def sortKey : SortCol → EnrichedRow → Option ℚ
  | .departure, x => x.departure.map (fun t => (t : ℚ))
  | .arrival, x => x.arrival.map (fun t => (t : ℚ))
  | .blockHoursTotal, x => x.blockHoursTotal
  | .boostedHours, x => some x.boostedHours
  | .blockHoursPerPairingDay, x => some x.blockHoursPerPairingDay
  | .roundtrips, x => some (x.roundtrips : ℚ)
  | .actualFlightsPerDay, x => some x.actualFlightsPerDay

/-- The row ordering realised by `sort_values(by, ascending, na_position =
"last"` (the default)): null keys sort after every non-null key in both
directions; non-null keys compare by value in the requested direction. -/
def keyLE (asc : Bool) : Option ℚ → Option ℚ → Bool
  | _, Option.none => true
  | Option.none, some _ => false
  | some x, some y => if asc then decide (x ≤ y) else decide (y ≤ x)

/-- `filtered_df.sort_values(by = col, ascending = asc)` (lines 203-208):
a sort under `keyLE`, which captures the documented pandas behavior — output
a permutation of the rows, ordered by the key in the requested direction
with null/NaN keys last (the `na_position` default).  The relative order of
rows tied on the key is NOT determined by pandas (the default
`kind = quicksort` is unstable and may permute ties); this model realizes
one concrete such order via a stable insertion sort, and only the
tie-insensitive consequences (permutation, sortedness, nulls-last,
membership, and fixtures with pairwise distinct keys) are used in the
theorems below. -/
def sort_values (col : SortCol) (asc : Bool) (rows : List EnrichedRow) : List EnrichedRow :=
  List.insertionSort (fun a b => keyLE asc (sortKey col a) (sortKey col b) = true) rows

/-- `evaluate(rows, spec)`: the filtering of lines 156-200 followed by the
sort of lines 203-208.  The whole-span weekday filter sits between the two
pure filter groups and is the only step that can raise (on a `NaT`
endpoint). -/
def evaluate (rows : List EnrichedRow) (spec : FilterSortSpec) : Except PyErr (List EnrichedRow) :=
  match
    (if spec.preferredWeekdays.isEmpty then .ok (chainFilter (activePre spec) rows)
     else filterE (fun x => all_days_in spec.preferredWeekdays x.departure x.arrival)
            (chainFilter (activePre spec) rows))
  with
  | .error e => .error e
  | .ok r2 => .ok (sort_values spec.sortColumn spec.sortAscending (chainFilter (activePost spec) r2))

/-- Modelled from the spec: the `allowedWeekdaysForWholeSpan` semantics of
section 4.2 — keep a row only if every calendar day from the departure date
through the arrival date, as an inclusive range of calendar days, has its
weekday in the allowed set. -/
def specWholeSpanKeep (d a : Int) (allowed : List Int) : Bool :=
  let n := (dateOf a - dateOf d + 1).toNat
  ((List.range n).map (fun (k : Nat) => dayofweek (86400 * (dateOf d + (k : Int))))).all
    (fun w => allowed.contains w)

/-! ### Concrete fixtures used by the claim theorems -/

/-- A parsed row whose `Duration` cell is the non-numeric string "abc" (all
six required columns are present in the table it belongs to). -/
def c3row : ParsedRow :=
  ⟨.str "P1".data, Option.none, Option.none, Option.none,
   .str "PTY-JFK-PTY".data, .str "abc".data⟩

/-- Sort fixture: a row with `blockHoursTotal = 10`. -/
def c8rowHigh : EnrichedRow :=
  ⟨.str "R1".data, some 0, some 3600, some 36000, .na, .na, some 3, some 3, 0, 0,
    Option.none, 0, some 10, 0⟩

/-- Sort fixture: a row with `blockHoursTotal = NaN` (unparsed block hours). -/
def c8rowNaN : EnrichedRow :=
  ⟨.str "R2".data, some 0, some 3600, Option.none, .na, .na, some 3, some 3, 0, 0,
    Option.none, 0, Option.none, 0⟩

/-- Sort fixture: a row with `blockHoursTotal = 5`. -/
def c8rowLow : EnrichedRow :=
  ⟨.str "R3".data, some 0, some 3600, some 18000, .na, .na, some 3, some 3, 0, 0,
    Option.none, 0, some 5, 0⟩

/-- The fixed 3-row sort fixture (one NaN row placed in the middle). -/
def c8fixture : List EnrichedRow := [c8rowHigh, c8rowNaN, c8rowLow]

/-- A row whose departure string failed to parse: null `departureInstant`,
hence null derived departure weekday, with a parsable arrival
(Monday 01:00). -/
def c7row : EnrichedRow :=
  ⟨.str "R0".data, Option.none, some 349200, Option.none, .na, .na, Option.none, some 0,
    0, 0, Option.none, 0, Option.none, 0⟩

/-- A spec whose only active filter is a specific departure date. -/
def c7specDate : FilterSortSpec :=
  ⟨some 4, Option.none, [], Option.none, Option.none, [], Option.none, Option.none,
    0, 0, 0, 0, 0, SortCol.departure, true⟩

/-- A spec whose only active filter is a preferred departure weekday. -/
def c7specWkd : FilterSortSpec :=
  ⟨Option.none, Option.none, [], some 0, Option.none, [], Option.none, Option.none,
    0, 0, 0, 0, 0, SortCol.departure, true⟩

/-- A spec whose only active filter is an earliest departure time. -/
def c7specTime : FilterSortSpec :=
  ⟨Option.none, Option.none, [], Option.none, Option.none, [], some 3600, Option.none,
    0, 0, 0, 0, 0, SortCol.departure, true⟩

/-- A spec with no departure-related filter: only an arrival weekday filter
(Monday) and an earliest arrival time of midnight are active. -/
def c7specNone : FilterSortSpec :=
  ⟨Option.none, Option.none, [], Option.none, some 0, [], Option.none, some 0,
    0, 0, 0, 0, 0, SortCol.departure, true⟩

end FlightPairing

deriving instance DecidableEq for Except

namespace FlightPairing

/-! ### Helper lemmas: round-trip counting -/

theorem roundtripWalk_found (l : List (List Char)) :
    ∀ acc, roundtripWalk l true acc = acc + l.countP (· = homeBase) := by
  induction l with
  | nil => intro acc; simp [roundtripWalk]
  | cons a rest ih =>
    intro acc
    by_cases ha : a = homeBase
    · simp [roundtripWalk, ha, ih, List.countP_cons]
      omega
    · simp [roundtripWalk, ha, ih, List.countP_cons]

theorem roundtripWalk_start (l : List (List Char)) :
    ∀ acc, roundtripWalk l false acc = acc + (l.countP (· = homeBase) - 1) := by
  induction l with
  | nil => intro acc; simp [roundtripWalk]
  | cons a rest ih =>
    intro acc
    by_cases ha : a = homeBase
    · simp [roundtripWalk, ha, roundtripWalk_found, List.countP_cons]
    · simp [roundtripWalk, ha, ih, List.countP_cons]

theorem roundtripWalk_filter (l : List (List Char)) :
    ∀ found acc, roundtripWalk l found acc
      = roundtripWalk (l.filter (· = homeBase)) found acc := by
  induction l with
  | nil => intro found acc; simp [roundtripWalk]
  | cons a rest ih =>
    intro found acc
    by_cases ha : a = homeBase
    · by_cases hf : found <;> simp [List.filter_cons, roundtripWalk, ha, hf, ih]
    · simp [List.filter_cons, roundtripWalk, ha, ih]

theorem dropWhile_replicate_space (x : List Char) :
    ∀ m : Nat, List.dropWhile pyIsSpace (List.replicate m ' ' ++ x)
      = List.dropWhile pyIsSpace x := by
  intro m
  induction m with
  | zero => simp
  | succ k ih =>
    rw [List.replicate_succ, List.cons_append, List.dropWhile_cons_of_pos (by decide), ih]

theorem pyStrip_pad (m n : Nat) (t : List Char) :
    pyStrip (List.replicate m ' ' ++ t ++ List.replicate n ' ') = pyStrip t := by
  have hdrop : List.dropWhile pyIsSpace (List.replicate m ' ' ++ t ++ List.replicate n ' ')
      = List.dropWhile pyIsSpace (t ++ List.replicate n ' ') := by
    rw [List.append_assoc]; exact dropWhile_replicate_space _ m
  rw [pyStrip, hdrop, List.dropWhile_append]
  by_cases he : (List.dropWhile pyIsSpace t).isEmpty = true
  · have hrep : List.dropWhile pyIsSpace (List.replicate n ' ') = [] := by
      simpa using dropWhile_replicate_space [] n
    rw [if_pos he, hrep, pyStrip, List.isEmpty_iff.mp he]
  · rw [if_neg he, pyStrip, List.reverse_append, List.reverse_replicate]
    exact congrArg _ (dropWhile_replicate_space _ n)

/-- C4: for every pairingDetails string, roundtrips is computed by splitting
on the dash, stripping whitespace from each token, and counting home-base
(`PTY`) occurrences strictly after the first; non-home-base tokens never
change the count, leading/trailing whitespace around codes does not change
the count, a null argument gives 0; and the three reference examples
evaluate to 1, 0 and 2. -/
theorem c4_roundtrips_semantics :
    count_roundtrips Option.none = 0
  ∧ (∀ s : List Char,
      count_roundtrips (some s) = roundtripWalk ((splitDash s).map pyStrip) false 0)
  ∧ (∀ toks : List (List Char),
      roundtripWalk toks false 0 = roundtripWalk (toks.filter (· = homeBase)) false 0)
  ∧ (∀ (m n : Nat) (toks : List (List Char)),
      roundtripWalk (toks.map (fun t =>
        pyStrip (List.replicate m ' ' ++ t ++ List.replicate n ' '))) false 0
        = roundtripWalk (toks.map pyStrip) false 0)
  ∧ count_roundtrips (some "PTY-JFK-PTY".data) = 1
  ∧ count_roundtrips (some "PTY-JFK-MIA".data) = 0
  ∧ count_roundtrips (some "JFK-PTY-MIA-PTY-PTY".data) = 2
  ∧ count_roundtrips (some " PTY - JFK -PTY ".data)
      = count_roundtrips (some "PTY-JFK-PTY".data) := by
  refine ⟨rfl, fun s => rfl, fun toks => roundtripWalk_filter toks false 0,
    fun m n toks => ?_, by decide, by decide, by decide, by decide⟩
  rw [List.map_congr_left (fun t _ => pyStrip_pad m n t)]

/-- C10: roundtrips has the closed form `max 0 (n - 1)` where `n` is the
number of stripped tokens equal to the home base; it is never negative, and
equals `n - 1` whenever the home base occurs at least once. -/
theorem c10_roundtrips_closed_form :
    (∀ s : List Char, (count_roundtrips (some s) : ℤ)
        = max 0 ((((splitDash s).map pyStrip).countP (· = homeBase) : ℤ) - 1))
  ∧ (∀ pd : Option (List Char), 0 ≤ (count_roundtrips pd : ℤ))
  ∧ (∀ s : List Char,
      1 ≤ ((splitDash s).map pyStrip).countP (· = homeBase) →
      count_roundtrips (some s)
        = ((splitDash s).map pyStrip).countP (· = homeBase) - 1) := by
  have hclosed : ∀ s : List Char, count_roundtrips (some s)
      = ((splitDash s).map pyStrip).countP (· = homeBase) - 1 := by
    intro s
    rw [show count_roundtrips (some s)
        = roundtripWalk ((splitDash s).map pyStrip) false 0 from rfl,
      roundtripWalk_start, Nat.zero_add]
  refine ⟨fun s => ?_, fun pd => Int.natCast_nonneg _, fun s _ => hclosed s⟩
  rw [hclosed s]
  omega

/-- C10 witness: the closed form evaluated on `"PTY-JFK-PTY"`, which has two
home-base tokens. -/
theorem c10_roundtrips_closed_form_witness :
    1 ≤ ((splitDash "PTY-JFK-PTY".data).map pyStrip).countP (· = homeBase)
  ∧ count_roundtrips (some "PTY-JFK-PTY".data)
      = ((splitDash "PTY-JFK-PTY".data).map pyStrip).countP (· = homeBase) - 1 :=
  ⟨by decide, c10_roundtrips_closed_form.2.2 "PTY-JFK-PTY".data (by decide)⟩

/-! ### Schema validation and enrichment totality -/

theorem contains_iff_mem_str (cols : List String) (c : String) :
    cols.contains c = true ↔ c ∈ cols := by
  simp [List.contains, List.elem_iff]

/-- C2: when a required column is missing, `parse_flight_pairings_csv`
reports a schema error listing exactly the missing required column names and
never returns a table of enriched rows. -/
theorem c2_schema_error :
    ∀ (cols : List String) (rows : List ParsedRow),
      (∃ c ∈ required_cols, c ∉ cols) →
      parse_flight_pairings_csv cols rows
          = LoadResult.schemaError (required_cols.filter (fun c => !cols.contains c))
      ∧ (∀ c : String,
          c ∈ required_cols.filter (fun c => !cols.contains c)
            ↔ c ∈ required_cols ∧ c ∉ cols)
      ∧ (∀ ers : List EnrichedRow,
          parse_flight_pairings_csv cols rows ≠ LoadResult.table ers) := by
  intro cols rows hex
  obtain ⟨c, hc, hnc⟩ := hex
  have hall : ¬ (required_cols.all (fun c => cols.contains c) = true) := by
    intro hall
    exact hnc ((contains_iff_mem_str cols c).mp (List.all_eq_true.mp hall c hc))
  refine ⟨?_, fun c => ?_, fun ers => ?_⟩
  · rw [parse_flight_pairings_csv, if_neg hall]
  · simp [List.mem_filter, contains_iff_mem_str]
  · rw [parse_flight_pairings_csv, if_neg hall]
    simp

/-- C2 witness: a header missing exactly the `Duration` column. -/
theorem c2_schema_error_witness :
    parse_flight_pairings_csv
        ["Pairing", "Departure", "Arrival", "Block hours", "Pairing details"] []
      = LoadResult.schemaError
          (required_cols.filter (fun c =>
            !(["Pairing", "Departure", "Arrival", "Block hours", "Pairing details"].contains c)))
  ∧ ("Duration" ∈ required_cols.filter (fun c =>
        !(["Pairing", "Departure", "Arrival", "Block hours", "Pairing details"].contains c))
      ↔ "Duration" ∈ required_cols
        ∧ "Duration" ∉ ["Pairing", "Departure", "Arrival", "Block hours", "Pairing details"]) :=
  ⟨(c2_schema_error _ [] ⟨"Duration", by decide, by decide⟩).1,
   (c2_schema_error _ [] ⟨"Duration", by decide, by decide⟩).2.1 "Duration"⟩

/-- C3: the enrichment is not total: on a table with all required columns
whose `Duration` cell is a non-numeric string, `num_segments / duration`
raises `TypeError` inside `calculate_actual_flights_per_day` and the
exception escapes `parse_flight_pairings_csv`, aborting the whole batch
instead of degrading that field to null/0. -/
theorem c3_duration_type_error :
    parse_flight_pairings_csv required_cols [c3row] = LoadResult.runtimeError PyErr.typeError
  ∧ calculate_actual_flights_per_day c3row.pairingDetails c3row.duration
      = .error .typeError := by
  exact ⟨by decide, by decide⟩

/-- C5 counterexample: a negative numeric `Duration` yields a negative
`actualFlightsPerDay`, and a string-typed `Duration` (present and nonzero)
raises `TypeError` instead of producing the documented ratio or 0.0. -/
theorem c5_counterexample :
    calculate_actual_flights_per_day (.str "PTY-JFK-PTY".data) (.num (-2)) = .ok (-(3/2))
  ∧ (-(3/2) : ℚ) < 0
  ∧ calculate_actual_flights_per_day (.str "PTY-JFK-PTY".data) (.str "abc".data)
      = .error .typeError := by
  refine ⟨?_, by norm_num, by decide⟩
  have hcnt : countDash "PTY-JFK-PTY".data = 2 := by decide
  rw [calculate_actual_flights_per_day, if_neg (by decide), hcnt]
  norm_num

/-- C5 (amended): for rows whose `Pairing details` cell is a string or
missing and whose `Duration` cell is a number or missing,
`actualFlightsPerDay` equals (dash count + 1) / durationDays when both are
present and the duration is nonzero, and 0.0 otherwise; the result is
nonnegative whenever the duration is nonnegative (in particular 1.5 for
`"PTY-JFK-PTY"` over 2 days).  (The unqualified claims fail: a negative
duration gives a negative value and a string duration raises.) -/
theorem c5_afpd_amended :
    (∀ (s : List Char) (q : ℚ), q ≠ 0 →
      calculate_actual_flights_per_day (.str s) (.num q)
        = .ok (((countDash s : ℚ) + 1) / q))
  ∧ (∀ s : List Char, calculate_actual_flights_per_day (.str s) (.num 0) = .ok 0)
  ∧ (∀ v : PyVal, calculate_actual_flights_per_day v .na = .ok 0)
  ∧ (∀ v : PyVal, calculate_actual_flights_per_day .na v = .ok 0)
  ∧ (∀ (s : List Char) (q : ℚ), 0 ≤ q → ∀ r : ℚ,
      calculate_actual_flights_per_day (.str s) (.num q) = .ok r → 0 ≤ r)
  ∧ calculate_actual_flights_per_day (.str "PTY-JFK-PTY".data) (.num 2) = .ok (3/2) := by
  have hmain : ∀ (s : List Char) (q : ℚ), q ≠ 0 →
      calculate_actual_flights_per_day (.str s) (.num q)
        = .ok (((countDash s : ℚ) + 1) / q) := by
    intro s q hq
    rw [calculate_actual_flights_per_day, if_neg]
    simp [PyVal.isna, PyVal.eqZero, hq]
  refine ⟨hmain, fun s => ?_, fun v => ?_, fun v => ?_, fun s q hq r hr => ?_, ?_⟩
  · rw [calculate_actual_flights_per_day, if_pos]
    simp [PyVal.isna, PyVal.eqZero]
  · cases v <;> rfl
  · cases v <;> rfl
  · by_cases h0 : q = 0
    · rw [h0] at hr
      rw [calculate_actual_flights_per_day,
        if_pos (by simp [PyVal.isna, PyVal.eqZero])] at hr
      cases hr
      exact le_refl 0
    · rw [hmain s q h0] at hr
      cases hr
      have hqpos : 0 < q := lt_of_le_of_ne hq (Ne.symm h0)
      positivity
  · rw [hmain _ 2 (by norm_num)]
    have hcnt : countDash "PTY-JFK-PTY".data = 2 := by decide
    rw [hcnt]
    norm_num

/-! ### Boosted hours bounds (C1) -/

theorem depDayBoost_nonneg (d a : Int) : 0 ≤ depDayBoost d a := by
  simp only [depDayBoost]
  split_ifs
  · exact div_nonneg
      (by exact_mod_cast le_max_left 0 (min a (normalize d + 86399) - d)) (by norm_num)
  · exact le_refl 0

theorem arrDayBoost_nonneg (d a : Int) : 0 ≤ arrDayBoost d a := by
  simp only [arrDayBoost]
  split_ifs
  · exact div_nonneg
      (by exact_mod_cast le_max_left 0 (a - max d (normalize a))) (by norm_num)
  · exact le_refl 0

theorem holidayOverlapHours_nonneg (d a : Int) : 0 ≤ holidayOverlapHours d a := by
  simp only [holidayOverlapHours]
  apply List.sum_nonneg
  intro x hx
  simp only [List.mem_map] at hx
  obtain ⟨k, _, rfl⟩ := hx
  split_ifs with h1 h2
  · refine div_nonneg ?_ (by norm_num)
    have hle : (0:Int) ≤ min a (normalize d + 86400 * (k:Int) + 86399)
        - max d (normalize d + 86400 * (k:Int)) := by omega
    exact_mod_cast hle
  · exact le_refl 0
  · exact le_refl 0

theorem calc_boosted_null (dep arr bs : Option Int) :
    calc_boosted Option.none arr bs = 0 ∧ calc_boosted dep Option.none bs = 0
    ∧ calc_boosted dep arr Option.none = 0 := by
  refine ⟨?_, ?_, ?_⟩
  · cases arr <;> cases bs <;> rfl
  · cases dep <;> cases bs <;> rfl
  · cases dep <;> cases arr <;> rfl

/-- C1 counterexample: the block-hours cell "-5:30" parses (via
`pd.to_timedelta("-5:30:00")`) to the negative timedelta -19800 seconds, a
non-null block duration, for which `calc_boosted` returns
`min(0, -5.5) = -5.5` — a negative `boostedHours`, refuting
`boostedHours ≥ 0` (and, for a null departure with the same block cell,
`boostedHours = 0 > blockHoursTotal = -5.5` refutes the upper bound). -/
theorem c1_counterexample :
    calc_boosted (some 0) (some 3600) (some (-19800)) = -(11/2)
  ∧ (-(11/2) : ℚ) < 0
  ∧ blockHoursTotalOf (some (-19800)) = some (-(11/2))
  ∧ calc_boosted Option.none (some 3600) (some (-19800)) = 0
  ∧ (-(11/2) : ℚ) < 0 := by
  refine ⟨?_, by norm_num, ?_, (calc_boosted_null Option.none (some 3600) (some (-19800))).1,
    by norm_num⟩
  · have h1 : depDayBoost 0 3600 = 0 := by
      simp only [depDayBoost]
      rw [if_neg (by decide)]
    have h2 : arrDayBoost 0 3600 = 0 := by
      simp only [arrDayBoost]
      rw [if_neg (by decide)]
    have h3 : weekendFullDays 0 3600 = 0 := by decide
    have h4 : holidayOverlapHours 0 3600 = 0 := by
      simp only [holidayOverlapHours]
      rw [show ((normalize (3600:Int) - normalize (0:Int)) / 86400 + 1).toNat = 1 from by decide]
      rw [show normalize (0:Int) = 0 from by decide]
      rw [show List.range 1 = [0] from rfl]
      simp only [List.map_cons, List.map_nil, List.sum_cons, List.sum_nil]
      rw [if_neg (by decide)]
      norm_num
    have hm : calc_boosted (some 0) (some 3600) (some (-19800))
        = min (depDayBoost 0 3600 + arrDayBoost 0 3600 + 24 * (weekendFullDays 0 3600 : ℚ)
            + holidayOverlapHours 0 3600) (((-19800 : Int) : ℚ)/3600) := rfl
    rw [hm, h1, h2, h3, h4]
    rw [show (0:ℚ) + 0 + 24 * ((0:ℕ):ℚ) + 0 = 0 by norm_num]
    rw [min_eq_right (by norm_num : (((-19800 : Int) : ℚ)/3600) ≤ 0)]
    norm_num
  · simp only [blockHoursTotalOf, Option.map_some]
    norm_num

/-- C1 (amended): for every row with a non-null, nonnegative block duration
(as produced by any block-hours string of the documented `H:MM` shape),
`boostedHours` is at least 0 and at most `blockHoursTotal`; every row with a
null departure, arrival, or block duration gets `boostedHours = 0.0`.  (For
a negative parsed block duration — reachable through a signed block-hours
string — both bounds can fail, see the counterexample.) -/
theorem c1_boosted_bounds :
    (∀ (dep arr : Option Int) (b : Int), 0 ≤ b →
      0 ≤ calc_boosted dep arr (some b) ∧ calc_boosted dep arr (some b) ≤ (b : ℚ) / 3600)
  ∧ (∀ dep arr bs : Option Int,
      calc_boosted Option.none arr bs = 0 ∧ calc_boosted dep Option.none bs = 0
      ∧ calc_boosted dep arr Option.none = 0) := by
  refine ⟨?_, calc_boosted_null⟩
  intro dep arr b hb
  have hb2 : (0:ℚ) ≤ (b:ℚ)/3600 := div_nonneg (by exact_mod_cast hb) (by norm_num)
  cases dep with
  | none =>
    rw [(calc_boosted_null Option.none arr (some b)).1]
    exact ⟨le_refl 0, hb2⟩
  | some d =>
    cases arr with
    | none =>
      rw [(calc_boosted_null (some d) Option.none (some b)).2.1]
      exact ⟨le_refl 0, hb2⟩
    | some a =>
      have hm : calc_boosted (some d) (some a) (some b)
          = min (depDayBoost d a + arrDayBoost d a + 24 * (weekendFullDays d a : ℚ)
              + holidayOverlapHours d a) ((b:ℚ)/3600) := rfl
      rw [hm]
      have hpos : 0 ≤ depDayBoost d a + arrDayBoost d a
          + 24 * (weekendFullDays d a : ℚ) + holidayOverlapHours d a :=
        add_nonneg (add_nonneg (add_nonneg (depDayBoost_nonneg d a) (arrDayBoost_nonneg d a))
          (by positivity)) (holidayOverlapHours_nonneg d a)
      exact ⟨le_min hpos hb2, min_le_right _ _⟩

/-- C1 witness: the amended bounds at a 5.5-hour nonnegative block duration. -/
theorem c1_boosted_bounds_witness :
    0 ≤ calc_boosted (some 0) (some 3600) (some 19800)
  ∧ calc_boosted (some 0) (some 3600) (some 19800) ≤ ((19800 : Int) : ℚ) / 3600 :=
  c1_boosted_bounds.1 (some 0) (some 3600) 19800 (by decide)

/-! ### Whole-span weekday filter (C6) -/

/-- C6 counterexample: a pairing departing Saturday 23:00 (timestamp 255600,
weekday 5) and arriving Monday 01:00 (349200, weekday 0) spans the calendar
days Saturday, Sunday, Monday, so under allowed = {saturday, sunday} the
claimed inclusive-calendar-day semantics excludes it; but the code
enumerates `pd.date_range(dep, arr) = [Sat 23:00, Sun 23:00]` (24-hour steps
anchored at the departure time, never reaching the arrival date because the
arrival time-of-day 01:00 is earlier than 23:00) and keeps the row. -/
theorem c6_counterexample :
    all_days_in [5, 6] (some 255600) (some 349200) = .ok true
  ∧ specWholeSpanKeep 255600 349200 [5, 6] = false
  ∧ dayofweek 255600 = 5 ∧ dayofweek 349200 = 0
  ∧ timeOfDay 255600 = 82800 ∧ timeOfDay 349200 = 3600 := by
  decide

/-- C6 (amended): under an active whole-span weekday filter the row is kept
iff every timestamp `departure + k·24h` with `departure + k·24h ≤ arrival`
has an allowed weekday; this coincides with the claimed inclusive
calendar-day semantics exactly when the arrival time-of-day is not earlier
than the departure time-of-day (when it is earlier, the arrival calendar day
is never examined — see the counterexample). -/
theorem c6_all_days_amended :
    ∀ (d a : Int) (allowed : List Int), timeOfDay d ≤ timeOfDay a →
      all_days_in allowed (some d) (some a) = .ok (specWholeSpanKeep d a allowed) := by
  intro d a allowed h
  have h86 : (86400:Int) ≠ 0 := by norm_num
  have hkey : (a - d) / 86400 = dateOf a - dateOf d := by
    have h1 := Int.ediv_add_emod a 86400
    have h2 := Int.ediv_add_emod d 86400
    have hsplit : a - d = (a % 86400 - d % 86400) + (a / 86400 - d / 86400) * 86400 := by
      omega
    rw [hsplit, Int.add_mul_ediv_right _ _ h86]
    have hz : (a % 86400 - d % 86400) / 86400 = 0 := by
      apply Int.ediv_eq_zero_of_lt
      · simp only [timeOfDay] at h
        omega
      · have ha := Int.emod_lt_of_pos a (show (0:Int) < 86400 by norm_num)
        have hd := Int.emod_nonneg d h86
        omega
    rw [hz, zero_add]
    simp [dateOf]
  have helem : ∀ k : Nat,
      dayofweek (d + 86400 * (k:Int)) = dayofweek (86400 * (dateOf d + (k:Int))) := by
    intro k
    simp only [dayofweek]
    rw [show d + 86400 * (k:Int) = d + (k:Int) * 86400 by ring,
      Int.add_mul_ediv_right _ _ h86, Int.mul_ediv_cancel_left _ h86]
    simp [dateOf]
  simp only [all_days_in, specWholeSpanKeep]
  rw [hkey]
  have hmap : (List.range (dateOf a - dateOf d + 1).toNat).map
        (fun (k : Nat) => dayofweek (d + 86400 * (k:Int)))
      = (List.range (dateOf a - dateOf d + 1).toNat).map
        (fun (k : Nat) => dayofweek (86400 * (dateOf d + (k:Int)))) :=
    List.map_congr_left (fun k _ => helem k)
  rw [hmap]

/-- C6 witness: Saturday 23:00 to Monday 23:30 (arrival time-of-day later
than departure time-of-day), where the code agrees with the inclusive
calendar-day semantics. -/
theorem c6_all_days_amended_witness :
    timeOfDay 255600 ≤ timeOfDay 430200
  ∧ all_days_in [5, 6] (some 255600) (some 430200)
      = .ok (specWholeSpanKeep 255600 430200 [5, 6]) :=
  ⟨by decide, c6_all_days_amended 255600 430200 [5, 6] (by decide)⟩

/-- C5 witness: the amended nonnegativity applied at the reference example
(duration 2, details `"PTY-JFK-PTY"`). -/
theorem c5_afpd_amended_witness :
    calculate_actual_flights_per_day (.str "PTY-JFK-PTY".data) (.num 2) = .ok (3/2)
  ∧ 0 ≤ ((3:ℚ)/2) :=
  ⟨c5_afpd_amended.2.2.2.2.2,
   c5_afpd_amended.2.2.2.2.1 "PTY-JFK-PTY".data 2 (by norm_num) (3/2)
     c5_afpd_amended.2.2.2.2.2⟩

end FlightPairing

namespace FlightPairing

/-! ### Filter/sort evaluator lemmas (C7, C8) -/

theorem mem_chainFilter {ps : List (EnrichedRow → Bool)} {l : List EnrichedRow}
    {x : EnrichedRow} :
    x ∈ chainFilter ps l ↔ x ∈ l ∧ ∀ p ∈ ps, p x = true := by
  induction ps generalizing l with
  | nil => simp [chainFilter]
  | cons p ps ih =>
    rw [chainFilter, ih]
    simp only [List.mem_filter, List.mem_cons]
    constructor
    · rintro ⟨⟨hx, hp⟩, hall⟩
      exact ⟨hx, fun q hq => hq.elim (fun he => he ▸ hp) (hall q)⟩
    · rintro ⟨hx, hall⟩
      exact ⟨⟨hx, hall p (Or.inl rfl)⟩, fun q hq => hall q (Or.inr hq)⟩

theorem filterE_ok_mem {p : EnrichedRow → Except PyErr Bool} :
    ∀ {l out : List EnrichedRow}, filterE p l = .ok out →
      ∀ x ∈ out, x ∈ l ∧ p x = .ok true := by
  intro l
  induction l with
  | nil =>
    intro out h x hx
    rw [filterE] at h
    cases h
    cases hx
  | cons a as ih =>
    intro out h x hx
    rw [filterE] at h
    cases hpa : p a with
    | error e => rw [hpa] at h; cases h
    | ok b =>
      rw [hpa] at h
      cases hrest : filterE p as with
      | error e => rw [hrest] at h; cases h
      | ok rest =>
        rw [hrest] at h
        cases h
        cases b with
        | true =>
          rcases List.mem_cons.mp hx with rfl | hxr
          · exact ⟨List.mem_cons_self _ _, hpa⟩
          · obtain ⟨hmem, hp⟩ := ih hrest x hxr
            exact ⟨List.mem_cons_of_mem a hmem, hp⟩
        | false =>
          obtain ⟨hmem, hp⟩ := ih hrest x hx
          exact ⟨List.mem_cons_of_mem a hmem, hp⟩

theorem keyLE_total (asc : Bool) (u v : Option ℚ) :
    keyLE asc u v = true ∨ keyLE asc v u = true := by
  cases u <;> cases v <;> cases asc <;> simp [keyLE] <;> exact le_total _ _

theorem keyLE_trans (asc : Bool) (u v w : Option ℚ) :
    keyLE asc u v = true → keyLE asc v w = true → keyLE asc u w = true := by
  cases u <;> cases v <;> cases w <;> cases asc <;> simp [keyLE] <;>
    (intro h1 h2; first | exact le_trans h1 h2 | exact le_trans h2 h1)

theorem sort_values_perm (col : SortCol) (asc : Bool) (rows : List EnrichedRow) :
    (sort_values col asc rows).Perm rows :=
  List.perm_insertionSort _ rows

theorem sort_values_sorted (col : SortCol) (asc : Bool) (rows : List EnrichedRow) :
    (sort_values col asc rows).Pairwise
      (fun a b => keyLE asc (sortKey col a) (sortKey col b) = true) := by
  haveI : IsTotal EnrichedRow (fun a b => keyLE asc (sortKey col a) (sortKey col b) = true) :=
    ⟨fun a b => keyLE_total asc (sortKey col a) (sortKey col b)⟩
  haveI : IsTrans EnrichedRow (fun a b => keyLE asc (sortKey col a) (sortKey col b) = true) :=
    ⟨fun a b c => keyLE_trans asc (sortKey col a) (sortKey col b) (sortKey col c)⟩
  exact List.sorted_insertionSort _ rows

theorem evaluate_ok_mem {rows : List EnrichedRow} {spec : FilterSortSpec}
    {out : List EnrichedRow} (h : evaluate rows spec = .ok out) :
    ∀ x ∈ out, x ∈ rows
      ∧ (∀ p ∈ activePre spec, p x = true)
      ∧ (∀ p ∈ activePost spec, p x = true)
      ∧ (spec.preferredWeekdays.isEmpty = false →
          all_days_in spec.preferredWeekdays x.departure x.arrival = .ok true) := by
  intro x hx
  rw [evaluate] at h
  cases hW : spec.preferredWeekdays.isEmpty with
  | true =>
    rw [hW] at h
    simp only [if_true] at h
    cases h
    have hx2 : x ∈ chainFilter (activePost spec) (chainFilter (activePre spec) rows) :=
      ((sort_values_perm _ _ _).mem_iff).mp hx
    obtain ⟨hx3, hpost⟩ := mem_chainFilter.mp hx2
    obtain ⟨hx4, hpre⟩ := mem_chainFilter.mp hx3
    exact ⟨hx4, hpre, hpost, fun hf => absurd hf (by decide)⟩
  | false =>
    rw [hW] at h
    simp only [if_false, Bool.false_eq_true] at h
    cases hF : filterE (fun y => all_days_in spec.preferredWeekdays y.departure y.arrival)
        (chainFilter (activePre spec) rows) with
    | error e => rw [hF] at h; cases h
    | ok m =>
      rw [hF] at h
      cases h
      have hx2 : x ∈ chainFilter (activePost spec) m :=
        ((sort_values_perm _ _ _).mem_iff).mp hx
      obtain ⟨hx3, hpost⟩ := mem_chainFilter.mp hx2
      obtain ⟨hx4, hall⟩ := filterE_ok_mem hF x hx3
      obtain ⟨hx5, hpre⟩ := mem_chainFilter.mp hx4
      exact ⟨hx5, hpre, hpost, fun _ => hall⟩

/-- C8: for every sort column and direction, sorting permutes the rows and
places every row whose sort key is null/NaN after all rows with a non-null
key (regardless of the ascending flag); on the fixed 3-row fixture, sorting
by `blockHoursTotal` ascending and descending yields exactly reversed orders
of the two non-NaN rows, with the NaN row last in both directions. -/
theorem c8_sort_nulls_last :
    (∀ (col : SortCol) (asc : Bool) (rows : List EnrichedRow),
      (sort_values col asc rows).Perm rows)
  ∧ (∀ (col : SortCol) (asc : Bool) (rows : List EnrichedRow),
      (sort_values col asc rows).Pairwise
        (fun a b => sortKey col a = Option.none → sortKey col b = Option.none))
  ∧ sort_values .blockHoursTotal true c8fixture = [c8rowLow, c8rowHigh, c8rowNaN]
  ∧ sort_values .blockHoursTotal false c8fixture = [c8rowHigh, c8rowLow, c8rowNaN] := by
  refine ⟨sort_values_perm, fun col asc rows => ?_, by decide, by decide⟩
  refine (sort_values_sorted col asc rows).imp ?_
  intro a b h ha
  cases hb : sortKey col b with
  | none => rfl
  | some q =>
    rw [ha, hb] at h
    simp [keyLE] at h

/-- C7: a row with a null parsed departure (hence a null derived departure
weekday) is excluded from the result of `evaluate` whenever a specific
departure date, a preferred departure weekday, or an earliest departure time
filter is active; and when no departure-related filter is active (and the
row satisfies the active non-departure filters) the row is present in the
result. -/
theorem c7_null_departure_filters :
    (∀ (rows : List EnrichedRow) (spec : FilterSortSpec) (out : List EnrichedRow)
        (x : EnrichedRow),
      x.departure = Option.none → spec.specificDepartureDate ≠ Option.none →
      evaluate rows spec = .ok out → x ∉ out)
  ∧ (∀ (rows : List EnrichedRow) (spec : FilterSortSpec) (out : List EnrichedRow)
        (x : EnrichedRow),
      x.departureDay = Option.none → spec.preferredDepartureWeekday ≠ Option.none →
      evaluate rows spec = .ok out → x ∉ out)
  ∧ (∀ (rows : List EnrichedRow) (spec : FilterSortSpec) (out : List EnrichedRow)
        (x : EnrichedRow),
      x.departure = Option.none → spec.earliestDeparture ≠ Option.none →
      evaluate rows spec = .ok out → x ∉ out)
  ∧ (∀ (rows : List EnrichedRow) (spec : FilterSortSpec) (x : EnrichedRow),
      x ∈ rows →
      spec.specificDepartureDate = Option.none → spec.preferredDepartureWeekday = Option.none →
      spec.earliestDeparture = Option.none → spec.excludedDates = [] →
      spec.preferredWeekdays = [] →
      (∀ p ∈ activePre spec, p x = true) → (∀ p ∈ activePost spec, p x = true) →
      evaluate rows spec
          = .ok (sort_values spec.sortColumn spec.sortAscending
              (chainFilter (activePost spec) (chainFilter (activePre spec) rows)))
        ∧ x ∈ sort_values spec.sortColumn spec.sortAscending
            (chainFilter (activePost spec) (chainFilter (activePre spec) rows))) := by
  refine ⟨?_, ?_, ?_, ?_⟩
  · intro rows spec out x hdep hspec h hx
    obtain ⟨d, hd⟩ := Option.ne_none_iff_exists'.mp hspec
    have hm : depDatePred d ∈ activePre spec := by
      simp [activePre, hd]
    have hp := (evaluate_ok_mem h x hx).2.1 _ hm
    simp [depDatePred, hdep] at hp
  · intro rows spec out x hdep hspec h hx
    obtain ⟨w, hw⟩ := Option.ne_none_iff_exists'.mp hspec
    have hm : depWeekdayPred w ∈ activePre spec := by
      simp [activePre, hw]
    have hp := (evaluate_ok_mem h x hx).2.1 _ hm
    simp [depWeekdayPred, hdep] at hp
  · intro rows spec out x hdep hspec h hx
    obtain ⟨t, ht⟩ := Option.ne_none_iff_exists'.mp hspec
    have hm : depTimePred t ∈ activePost spec := by
      simp [activePost, ht]
    have hp := (evaluate_ok_mem h x hx).2.2.1 _ hm
    simp [depTimePred, hdep] at hp
  · intro rows spec x hx _ _ _ _ hpw hpre hpost
    have hok : evaluate rows spec
        = .ok (sort_values spec.sortColumn spec.sortAscending
            (chainFilter (activePost spec) (chainFilter (activePre spec) rows))) := by
      rw [evaluate]
      have hE : spec.preferredWeekdays.isEmpty = true := by rw [hpw]; rfl
      simp [hE]
    refine ⟨hok, ?_⟩
    have h1 : x ∈ chainFilter (activePre spec) rows := mem_chainFilter.mpr ⟨hx, hpre⟩
    have h2 : x ∈ chainFilter (activePost spec) (chainFilter (activePre spec) rows) :=
      mem_chainFilter.mpr ⟨h1, hpost⟩
    exact ((sort_values_perm _ _ _).mem_iff).mpr h2

/-- C7 witness: the null-departure row `c7row` against each of the three
departure filters (each of which filters `[c7row]` down to the empty
result), and against a spec with only arrival-side filters active, where the
row is kept. -/
theorem c7_null_departure_filters_witness :
    c7row ∉ ([] : List EnrichedRow)
  ∧ c7row ∈ sort_values c7specNone.sortColumn c7specNone.sortAscending
      (chainFilter (activePost c7specNone) (chainFilter (activePre c7specNone) [c7row])) :=
  ⟨c7_null_departure_filters.1 [c7row] c7specDate [] c7row rfl (by decide) (by decide),
   (c7_null_departure_filters.2.2.2 [c7row] c7specNone c7row (List.mem_cons_self _ _)
      rfl rfl rfl rfl rfl (by decide) (by decide)).2⟩

end FlightPairing
